import Mathlib

/-!
Verification of the document-extraction and speech-synthesis fallback
pipeline of the QuizGenius repository.

The definitions below are a shallow embedding of the two route handlers
`src/app/api/text-to-speech/route.ts` and `src/app/api/extract-pdf/route.ts`.
Text is modelled as `List Char`; JavaScript numbers appearing in integer
positions are modelled as `Nat`/`Int`; the floating-point sample synthesis is
modelled over `ℝ` with explicit `Int.floor` where the source calls
`Math.floor`.  Effectful steps (body parsing, filesystem, the external gTTS
subprocess, the extraction backends) are modelled by explicit outcome
parameters threaded into the handler functions.
-/

/-! ## Text utilities shared by the text-to-speech route -/

/-- Whitespace class of the JavaScript regular-expression escape and of
String.prototype.trim: ASCII whitespace plus the Unicode space characters. -/
def isJsSpace (c : Char) : Bool :=
  c = ' ' || c = '\t' || c = '\n' || c = '\r' ||
  c.toNat = 11 || c.toNat = 12 || c.toNat = 0xa0 || c.toNat = 0x1680 ||
  (0x2000 ≤ c.toNat && c.toNat ≤ 0x200a) ||
  c.toNat = 0x2028 || c.toNat = 0x2029 || c.toNat = 0x202f ||
  c.toNat = 0x205f || c.toNat = 0x3000 || c.toNat = 0xfeff

/-- Leftmost, non-overlapping, global replacement of the literal pattern
`p :: ps` by `rep`, as performed by String.prototype.replace with a global
literal regular expression. -/
def replaceAll (p : Char) (ps rep : List Char) : List Char → List Char
  | [] => []
  | c :: rest =>
    if (p :: ps).isPrefixOf (c :: rest) then
      rep ++ replaceAll p ps rep (List.drop ps.length rest)
    else
      c :: replaceAll p ps rep rest
termination_by l => l.length
decreasing_by
  · simp [List.length_drop]; omega
  · simp

/-- Length of the leading run of hash characters. -/
def hashRun : List Char → ℕ
  | c :: rest => if c = '#' then hashRun rest + 1 else 0
  | [] => 0

/-- Whether a list starts with a JavaScript whitespace character. -/
def wsHead : List Char → Bool
  | c :: _ => isJsSpace c
  | [] => false

/-- Global replacement of the pattern "one to six hashes followed by a
whitespace character" by the empty string, as the backtracking regex engine
performs it: at a hash whose run has length at most six and is followed by
whitespace, the run and the whitespace character are deleted; otherwise the
scanner moves one character forward. -/
def stripHeadingMarks : List Char → List Char
  | [] => []
  | c :: rest =>
    if c = '#' then
      if hashRun (c :: rest) ≤ 6 && wsHead (List.drop (hashRun (c :: rest)) (c :: rest)) then
        stripHeadingMarks (List.drop (hashRun (c :: rest) + 1) (c :: rest))
      else
        c :: stripHeadingMarks rest
    else
      c :: stripHeadingMarks rest
termination_by l => l.length
decreasing_by
  · simp [List.length_drop]; omega
  · simp
  · simp

/-- JavaScript word-class characters: ASCII letters, digits, underscore. -/
def isWordChar (c : Char) : Bool :=
  (c.toNat ≥ 65 && c.toNat ≤ 90) || (c.toNat ≥ 97 && c.toNat ≤ 122) ||
  (c.toNat ≥ 48 && c.toNat ≤ 57) || c.toNat = 95

/-- Characters kept by the character-class pass of the cleaning chain:
word characters, whitespace, and the punctuation set written in the source
class (period, comma, bang, question mark, semicolon, colon, apostrophe,
double quote, hyphen). -/
def isKeptPunct (c : Char) : Bool :=
  c.toNat = 46 || c.toNat = 44 || c.toNat = 33 || c.toNat = 63 ||
  c.toNat = 59 || c.toNat = 58 || c.toNat = 39 || c.toNat = 34 || c.toNat = 45

/-- Per-character replacement of every character outside the allowed class by
a space. -/
def stripNonAllowed (s : List Char) : List Char :=
  s.map (fun c => if isWordChar c || isJsSpace c || isKeptPunct c then c else ' ')

/-- Replacement of every maximal whitespace run by a single space: inside a
run the characters are dropped until the run's last one, which becomes the
single space. -/
def collapseWs : List Char → List Char
  | [] => []
  | [c] => if isJsSpace c then [' '] else [c]
  | c :: d :: rest =>
    if isJsSpace c then
      if isJsSpace d then collapseWs (d :: rest)
      else ' ' :: collapseWs (d :: rest)
    else c :: collapseWs (d :: rest)

/-- Removal of leading and trailing whitespace, as String.prototype.trim. -/
def jsTrim (s : List Char) : List Char :=
  ((s.dropWhile (fun c => isJsSpace c)).reverse.dropWhile (fun c => isJsSpace c)).reverse

/-- The cleaning chain the text-to-speech handler applies to the request text:
pause markers to spaces, emphasis markers removed, asterisks removed, heading
hashes removed, disallowed characters to spaces, whitespace collapsed, ends
trimmed. -/
def cleanText (text : List Char) : List Char :=
  jsTrim (collapseWs (stripNonAllowed (stripHeadingMarks
    (List.filter (fun c => !(c = '*'))
      (replaceAll '[' "EXCITED]".toList []
        (replaceAll '[' "SLOW]".toList []
          (replaceAll '[' "EMPHASIS]".toList []
            (replaceAll '[' "PAUSE]".toList [' '] text))))))))

/-- The continuation notice appended after truncation of long cleaned text. -/
def contSuffix : List Char := "... [Content continues in full transcript]".toList

/-- The text actually sent to the external synthesis backend: the cleaned
text, truncated to its first five thousand characters plus the continuation
notice when it is longer than five thousand characters. -/
def cleanAndTruncate (text : List Char) : List Char :=
  let ct := cleanText text
  if 5000 < ct.length then ct.take 5000 ++ contSuffix else ct

/-! ## Duration estimation -/

/-- Recursive worker of the whitespace split: `acc` accumulates the current
piece reversed; a whitespace run ends the piece, with the run's characters
skipped one at a time. -/
def splitWsAux : List Char → List Char → List (List Char)
  | [], acc => [acc.reverse]
  | [c], acc => if isJsSpace c then [acc.reverse, []] else [(c :: acc).reverse]
  | c :: d :: rest, acc =>
    if isJsSpace c then
      if isJsSpace d then splitWsAux (d :: rest) acc
      else acc.reverse :: splitWsAux (d :: rest) []
    else splitWsAux (d :: rest) (c :: acc)

/-- JavaScript String.prototype.split with a whitespace-run regular
expression: pieces between maximal whitespace runs, with an empty piece for a
leading or a trailing run, and a single empty piece for the empty string. -/
def jsSplitWs (s : List Char) : List (List Char) :=
  splitWsAux s []

/-- Word count used by the display-duration estimator: the number of pieces
of the whitespace split. -/
def wordCount (text : List Char) : ℕ :=
  (jsSplitWs text).length

/-- Display-duration estimator of the text-to-speech route: the number of
minutes is the word count divided by one hundred and fifty, rounded up, and
the label is that number followed by a colon and two zeros. -/
def estimateDuration (text : List Char) : List Char :=
  let minutes := (wordCount text + 149) / 150
  (Nat.repr minutes).toList ++ [':', '0', '0']

/-! ## Placeholder waveform sizing and container header -/

/-- Placeholder duration in seconds: approximate words as characters divided
by five, speech time as words over one hundred and fifty words per minute,
with a thirty-second floor and no cap. -/
def durationSec (textLength : ℕ) : ℚ :=
  max (((textLength / 5 : ℕ) : ℚ) / 150 * 60) 30

/-- Number of sixteen-bit samples of the placeholder waveform. -/
def numSamples (textLength : ℕ) : ℕ :=
  (⌊durationSec textLength * 22050⌋).toNat

/-- Little-endian byte quadruple stored by DataView.setUint32. -/
def u32le (v : ℕ) : List ℕ :=
  [v % 256, v / 256 % 256, v / 2 ^ 16 % 256, v / 2 ^ 24 % 256]

/-- Little-endian byte pair stored by DataView.setUint16. -/
def u16le (v : ℕ) : List ℕ :=
  [v % 256, v / 256 % 256]

/-- Byte rendering of an ASCII tag written by the header helper. -/
def asciiBytes (s : List Char) : List ℕ :=
  s.map (fun c => c.toNat % 256)

/-- The forty-four byte linear-PCM WAV header the placeholder generator
writes for a waveform of `n` samples. -/
def wavHeader (n : ℕ) : List ℕ :=
  asciiBytes "RIFF".toList ++ u32le (36 + n * 2) ++
  asciiBytes "WAVE".toList ++ asciiBytes "fmt ".toList ++
  u32le 16 ++ u16le 1 ++ u16le 1 ++ u32le 22050 ++ u32le (22050 * 2) ++
  u16le 2 ++ u16le 16 ++ asciiBytes "data".toList ++ u32le (n * 2)

/-- Little-endian thirty-two bit read at a byte offset, for checking header
fields. -/
def readU32 (bytes : List ℕ) (off : ℕ) : ℕ :=
  bytes.getD off 0 + 256 * bytes.getD (off + 1) 0 +
  2 ^ 16 * bytes.getD (off + 2) 0 + 2 ^ 24 * bytes.getD (off + 3) 0

/-! ## Extraction route model -/

/-- Metadata carried by an extraction result. -/
structure ExtractionMetadata where
  method : List Char
  page_count : Option ℕ := none
  pages_with_text : Option ℕ := none
  total_characters : Option ℕ := none
  errorMsg : Option (List Char) := none
deriving DecidableEq

/-- Result of an extraction backend. -/
structure ExtractionResult where
  text : List Char
  metadata : ExtractionMetadata
  success : Bool
deriving DecidableEq

/-- Outcome of invoking one JavaScript extraction backend: a returned result
or a thrown error message. -/
inductive BackendOutcome where
  | ok (r : ExtractionResult)
  | exn (msg : List Char)
deriving DecidableEq

/-- Outcome of the Python extraction stage as a whole (file save plus
subprocess): the resolved text and metadata, or a thrown error. The Python
runner always resolves with a true success flag. -/
inductive PythonOutcome where
  | ok (text : List Char) (meta : ExtractionMetadata)
  | exn (msg : List Char)
deriving DecidableEq

/-- The fallback loop of the extraction route: try each backend in order,
return the first result that reports success with text longer than ten
characters, remember the message of the last backend that threw, and throw
the remembered message, or a generic one, when the list is exhausted. -/
def extractTextWithFallback : List BackendOutcome → Option (List Char) →
    Except (List Char) ExtractionResult
  | [], lastError =>
    .error (lastError.getD "All extraction methods failed".toList)
  | .ok r :: rest, lastError =>
    if r.success && decide (10 < r.text.length) then .ok r
    else extractTextWithFallback rest lastError
  | .exn e :: rest, _ =>
    extractTextWithFallback rest (some e)

/-- A request to the extraction route together with the outcomes of the
effectful stages it may run. -/
structure ExtractRequest where
  hasFile : Bool
  fileType : List Char
  usePython : Bool
  pythonOutcome : PythonOutcome
  pdfParseOutcome : BackendOutcome
  jsBasicOutcome : BackendOutcome
deriving DecidableEq

/-- Response of the extraction route. -/
structure ExtractResponse where
  status : ℕ
  text : Option (List Char)
  errorMsg : Option (List Char)
  success : Bool
  metadata : Option ExtractionMetadata
deriving DecidableEq

/-- The fixed generic message of the low-text response. -/
def lowTextMsg : List Char :=
  ("Failed to extract meaningful text from PDF. " ++
   "The file might be scanned, encrypted, or contain only images.").toList

/-- The POST handler of the extraction route: reject a missing file or a
non-PDF media type; run the Python stage when requested, falling back to the
JavaScript loop when it throws, or the JavaScript loop directly otherwise; a
thrown error becomes a five hundred, a result below the final gate becomes a
four hundred twenty-two with the generic message and the metadata, and a
passing result is returned with its text. -/
def extractPOST (req : ExtractRequest) : ExtractResponse :=
  if !req.hasFile then
    ⟨400, none, some "No file provided".toList, false, none⟩
  else if req.fileType ≠ "application/pdf".toList then
    ⟨400, none, some "File must be a PDF".toList, false, none⟩
  else
    let fb := extractTextWithFallback [req.pdfParseOutcome, req.jsBasicOutcome] none
    let res : Except (List Char) ExtractionResult :=
      if req.usePython then
        match req.pythonOutcome with
        | .ok text meta => .ok ⟨text, meta, true⟩
        | .exn _ => fb
      else fb
    match res with
    | .error e =>
      ⟨500, none, some ("Failed to extract text from PDF: ".toList ++ e), false, none⟩
    | .ok r =>
      if !r.success || decide (r.text.length < 10) then
        ⟨422, none, some lowTextMsg, false, some r.metadata⟩
      else
        ⟨200, some r.text, none, true, some r.metadata⟩

/-- A backend outcome passes the quality gate of the fallback loop when it is
a returned result reporting success whose text is longer than ten
characters. -/
def gatePasses (o : BackendOutcome) : Prop :=
  ∃ r, o = .ok r ∧ r.success = true ∧ 10 < r.text.length

/-! ## Placeholder sample synthesis -/

/-- Real value of the placeholder sample at index `i`, before quantization:
a four hundred forty hertz sine at twenty-two thousand and fifty hertz,
scaled by the fixed amplitude, an attack-and-decay envelope, and the
sixteen-bit full-scale factor. -/
noncomputable def sampleReal (i : ℕ) : ℝ :=
  let time : ℝ := (i : ℝ) / 22050
  let frequency : ℝ := 440
  let amplitude : ℝ := 0.15
  let decay : ℝ := Real.exp (-time * 0.5)
  let envelope : ℝ := min 1 (time * 10) * decay
  Real.sin (2 * Real.pi * frequency * time) * amplitude * envelope * 32767

/-- The stored sample value: the real sample quantized with Math.floor. -/
noncomputable def sampleValue (i : ℕ) : ℤ :=
  ⌊sampleReal i⌋

/-- Sample formula written from the specification's words, with flooring
quantization: `decay = e^(-0.5 t)`, `attack = min(1, 10 t)`,
`envelope = attack * decay`, and the sample is the floor of
`sin(2*pi*440*t) * amplitude * envelope * 32767` at the route's amplitude. -/
noncomputable def specSampleFloor (i : ℕ) : ℤ :=
  let t : ℝ := (i : ℝ) / 22050
  let amplitude : ℝ := 0.15
  let decay : ℝ := Real.exp (-(0.5 * t))
  let attack : ℝ := min 1 (10 * t)
  let envelope : ℝ := attack * decay
  ⌊Real.sin (2 * Real.pi * 440 * t) * amplitude * envelope * 32767⌋

/-- Sample formula written from the specification's words, with rounding
quantization as the specification states it. -/
noncomputable def specSampleRound (i : ℕ) : ℤ :=
  let t : ℝ := (i : ℝ) / 22050
  let amplitude : ℝ := 0.15
  let decay : ℝ := Real.exp (-(0.5 * t))
  let attack : ℝ := min 1 (10 * t)
  let envelope : ℝ := attack * decay
  round (Real.sin (2 * Real.pi * 440 * t) * amplitude * envelope * 32767)

/-- Unsigned sixteen-bit pattern stored by DataView.setInt16 for a signed
value: the value modulo two to the sixteenth. -/
def toUint16 (v : ℤ) : ℕ :=
  (v % 65536).toNat

/-- Signed decoding of an unsigned sixteen-bit pattern. -/
def decodeInt16 (u : ℕ) : ℤ :=
  if u < 32768 then (u : ℤ) else (u : ℤ) - 65536

/-- The two little-endian bytes the generator stores for sample `i`. -/
noncomputable def sampleBytes (i : ℕ) : List ℕ :=
  [toUint16 (sampleValue i) % 256, toUint16 (sampleValue i) / 256 % 256]

/-- Bytes of the first `n` samples, in the order the generator's loop writes
them. -/
noncomputable def pcmBytes : ℕ → List ℕ
  | 0 => []
  | n + 1 => pcmBytes n ++ sampleBytes n

/-- The complete placeholder WAV buffer for a given text length: the header
followed by the PCM samples. -/
noncomputable def fallbackWavBytes (textLength : ℕ) : List ℕ :=
  wavHeader (numSamples textLength) ++ pcmBytes (numSamples textLength)

/-- The base64 alphabet used by btoa. -/
def base64Chars : List Char :=
  "ABCDEFGHIJKLMNOPQRSTUVWXYZabcdefghijklmnopqrstuvwxyz0123456789+/".toList

/-- Character of the base64 alphabet at a six-bit index. -/
def b64CharAt (n : ℕ) : Char :=
  base64Chars.getD n '='

/-- Standard base64 encoding of a byte list, with padding, as btoa produces
for a binary string. -/
def base64Encode : List ℕ → List Char
  | [] => []
  | [b1] => [b64CharAt (b1 / 4), b64CharAt (b1 % 4 * 16), '=', '=']
  | [b1, b2] => [b64CharAt (b1 / 4), b64CharAt (b1 % 4 * 16 + b2 / 16),
                 b64CharAt (b2 % 16 * 4), '=']
  | b1 :: b2 :: b3 :: rest =>
    [b64CharAt (b1 / 4), b64CharAt (b1 % 4 * 16 + b2 / 16),
     b64CharAt (b2 % 16 * 4 + b3 / 64), b64CharAt (b3 % 64)] ++ base64Encode rest

/-- Ambient state of the JavaScript runtime available to the route handler:
the current clock reading, whether the audio directory is usable, and whether
the external gTTS stage succeeds and produces the output file. The
placeholder generator reads none of it. -/
structure JsEnv where
  now : ℕ
  audioDirOk : Bool
  gttsOk : Bool

/-- The placeholder audio data URL returned on the fallback path, as a
function of the ambient state and the character count it is sized from. The
source function reads nothing from the ambient state. -/
noncomputable def generateFallbackAudio (_env : JsEnv) (textLength : ℕ) : List Char :=
  "data:audio/wav;base64,".toList ++ base64Encode (fallbackWavBytes textLength)

/-! ## Text-to-speech route model -/

/-- Options field of the synthesis request body. -/
structure TTSOptions where
  voice : List Char
  rate : List Char
  pitch : List Char
  volume : List Char

/-- The static voice table mapping a voice label to a language and accent
domain pair. -/
def VOICE_MAPPING (v : List Char) : Option (List Char × List Char) :=
  if v = "professional".toList then some ("en".toList, "com".toList)
  else if v = "casual".toList then some ("en".toList, "co.uk".toList)
  else if v = "academic".toList then some ("en".toList, "com.au".toList)
  else if v = "friendly".toList then some ("en".toList, "ca".toList)
  else none

/-- A synthesis request body: either unparseable, or a text with options. -/
inductive TtsRequestBody where
  | malformed
  | valid (text : List Char) (options : TTSOptions)

/-- Response of the text-to-speech route. -/
structure TtsResponse where
  status : ℕ
  success : Bool
  errorMsg : Option (List Char)
  audioUrl : Option (List Char)
  duration : Option (List Char)
  voice : Option (List Char)
  warning : Option (List Char)
  message : Option (List Char)
  isFallback : Bool

/-- The POST handler of the text-to-speech route: a body that fails to parse
reaches the outer handler as a five hundred; empty text is rejected with a
four hundred; otherwise the text is cleaned and truncated, an unusable audio
directory reaches the outer handler as a five hundred, a successful gTTS
stage returns the generated file with a duration estimated from the truncated
cleaned text, and a failed gTTS stage returns the placeholder data URL sized
from the truncated cleaned text's length with a duration estimated from the
original text, a warning, and the fallback flag. -/
noncomputable def ttsPOST (env : JsEnv) (body : TtsRequestBody) : TtsResponse :=
  match body with
  | .malformed =>
    ⟨500, false, some "TTS generation failed: Unknown error".toList,
     none, none, none, none, none, false⟩
  | .valid text options =>
    if text.length = 0 then
      ⟨400, false, some "No text provided".toList, none, none, none, none, none, false⟩
    else
      let cleanT := cleanAndTruncate text
      if !env.audioDirOk then
        ⟨500, false, some "TTS generation failed: audio directory unavailable".toList,
         none, none, none, none, none, false⟩
      else
        let vs := (VOICE_MAPPING options.voice).getD ("en".toList, "com".toList)
        if env.gttsOk then
          ⟨200, true, none,
           some ("/audio/podcast_".toList ++ (Nat.repr env.now).toList ++ ".mp3".toList),
           some (estimateDuration cleanT),
           some ("gTTS ".toList ++ vs.1 ++ "-".toList ++ vs.2),
           none,
           some "High-quality TTS audio generated successfully!".toList,
           false⟩
        else
          ⟨200, true, none,
           some (generateFallbackAudio env cleanT.length),
           some (estimateDuration text),
           some "Placeholder Audio".toList,
           some "Audio synthesis temporarily unavailable - using placeholder audio.".toList,
           some ("Generated placeholder audio with correct duration. " ++
                 "You can read the full transcript or try regenerating for TTS audio.").toList,
           true⟩

/-! ## Theorems: extraction route -/

theorem fallback_cons_pass (r : ExtractionResult) (rest : List BackendOutcome)
    (le : Option (List Char)) (h1 : r.success = true) (h2 : 10 < r.text.length) :
    extractTextWithFallback (.ok r :: rest) le = .ok r := by
  simp [extractTextWithFallback, h1, h2]

theorem fallback_cons_skip (r : ExtractionResult) (rest : List BackendOutcome)
    (le : Option (List Char)) (h : ¬(r.success = true ∧ 10 < r.text.length)) :
    extractTextWithFallback (.ok r :: rest) le = extractTextWithFallback rest le := by
  rw [extractTextWithFallback]
  have hc : ¬ ((r.success && decide (10 < r.text.length)) = true) := by
    simp only [Bool.and_eq_true, decide_eq_true_eq]
    exact h
  rw [if_neg hc]

theorem fallback_cons_exn (e : List Char) (rest : List BackendOutcome)
    (le : Option (List Char)) :
    extractTextWithFallback (.exn e :: rest) le = extractTextWithFallback rest (some e) :=
  rfl

theorem not_gatePasses_ok {r : ExtractionResult}
    (h : ¬ gatePasses (.ok r)) : ¬(r.success = true ∧ 10 < r.text.length) := by
  intro ⟨h1, h2⟩
  exact h ⟨r, rfl, h1, h2⟩

/-- C3 (amended): for a well-formed request on the JavaScript path, if a
backend yields a result reporting success with text of length strictly
greater than ten (the gate of the fallback loop), then the endpoint returns
two hundred, success, and the text of the first backend in priority order
(pdf-parse before the basic JavaScript heuristic) whose result meets that
gate. -/
theorem extract_first_passing_backend (req : ExtractRequest) (r : ExtractionResult)
    (hfile : req.hasFile = true)
    (htype : req.fileType = "application/pdf".toList)
    (hpy : req.usePython = false)
    (h : (req.pdfParseOutcome = .ok r ∧ r.success = true ∧ 10 < r.text.length) ∨
         (¬ gatePasses req.pdfParseOutcome ∧
          req.jsBasicOutcome = .ok r ∧ r.success = true ∧ 10 < r.text.length)) :
    (extractPOST req).status = 200 ∧ (extractPOST req).success = true ∧
    (extractPOST req).text = some r.text := by
  have hfb : extractTextWithFallback [req.pdfParseOutcome, req.jsBasicOutcome] none = .ok r := by
    rcases h with ⟨h1, hs, hl⟩ | ⟨hskip, h2, hs, hl⟩
    · rw [h1]
      exact fallback_cons_pass r _ none hs hl
    · cases ho1 : req.pdfParseOutcome with
      | ok r1 =>
        rw [ho1] at hskip
        rw [fallback_cons_skip r1 _ none (not_gatePasses_ok hskip), h2]
        exact fallback_cons_pass r _ none hs hl
      | exn e =>
        rw [fallback_cons_exn, h2]
        exact fallback_cons_pass r _ (some e) hs hl
  have hnl : ¬ (r.text.length < 10) := by omega
  simp [extractPOST, hfile, htype, hpy, hfb, hnl, h.elim (fun x => x.2.1) (fun x => x.2.2.1)]

/-- C3 witness. -/
theorem extract_first_passing_backend_witness :
    (extractPOST ⟨true, "application/pdf".toList, false,
        .exn [], .ok ⟨"hello world!".toList, ⟨"pdf-parse".toList, none, none, none, none⟩, true⟩,
        .ok ⟨[], ⟨[], none, none, none, none⟩, false⟩⟩).status = 200 ∧
    (extractPOST ⟨true, "application/pdf".toList, false,
        .exn [], .ok ⟨"hello world!".toList, ⟨"pdf-parse".toList, none, none, none, none⟩, true⟩,
        .ok ⟨[], ⟨[], none, none, none, none⟩, false⟩⟩).text = some "hello world!".toList :=
  have h := extract_first_passing_backend
    ⟨true, "application/pdf".toList, false,
        .exn [], .ok ⟨"hello world!".toList, ⟨"pdf-parse".toList, none, none, none, none⟩, true⟩,
        .ok ⟨[], ⟨[], none, none, none, none⟩, false⟩⟩
    ⟨"hello world!".toList, ⟨"pdf-parse".toList, none, none, none, none⟩, true⟩
    rfl rfl rfl (Or.inl ⟨rfl, rfl, by decide⟩)
  ⟨h.1, h.2.2⟩

/-- C3 counterexample: a backend result whose text has length exactly ten
meets the ten-character threshold of the claim but not the strict gate of
the code, so the endpoint returns a five hundred instead of success with
that text. -/
theorem extract_gate_at_ten_fails :
    (extractPOST ⟨true, "application/pdf".toList, false,
        .exn [], .ok ⟨"0123456789".toList, ⟨"pdf-parse".toList, none, none, none, none⟩, true⟩,
        .ok ⟨[], ⟨[], none, none, none, none⟩, false⟩⟩).status = 500 ∧
    (extractPOST ⟨true, "application/pdf".toList, false,
        .exn [], .ok ⟨"0123456789".toList, ⟨"pdf-parse".toList, none, none, none, none⟩, true⟩,
        .ok ⟨[], ⟨[], none, none, none, none⟩, false⟩⟩).text = none := by
  constructor <;> rfl

/-- C4 (amended): when every backend of the JavaScript path is exhausted
without a result passing the gate, the endpoint returns a five hundred whose
message carries the aggregated error, preferring the most recent
backend-thrown message over the generic exhaustion message; the four hundred
twenty-two response arises instead when the Python stage produces a result
whose text falls below the final ten-character gate, and it carries the fixed
generic low-text message together with the result metadata. -/
theorem extract_exhaustion_and_low_text :
    (∀ req : ExtractRequest,
      req.hasFile = true → req.fileType = "application/pdf".toList →
      req.usePython = false →
      ¬ gatePasses req.pdfParseOutcome → ¬ gatePasses req.jsBasicOutcome →
      (extractPOST req).status = 500 ∧
      ∃ e, extractTextWithFallback [req.pdfParseOutcome, req.jsBasicOutcome] none = .error e ∧
        (extractPOST req).errorMsg = some ("Failed to extract text from PDF: ".toList ++ e) ∧
        (∀ m, req.jsBasicOutcome = .exn m → e = m) ∧
        (∀ r2 m, req.jsBasicOutcome = .ok r2 → req.pdfParseOutcome = .exn m → e = m) ∧
        (∀ r1 r2, req.pdfParseOutcome = .ok r1 → req.jsBasicOutcome = .ok r2 →
          e = "All extraction methods failed".toList)) ∧
    (∀ (req : ExtractRequest) (text : List Char) (meta : ExtractionMetadata),
      req.hasFile = true → req.fileType = "application/pdf".toList →
      req.usePython = true → req.pythonOutcome = .ok text meta →
      text.length < 10 →
      (extractPOST req).status = 422 ∧
      (extractPOST req).errorMsg = some lowTextMsg ∧
      (extractPOST req).metadata = some meta) := by
  constructor
  · intro req hfile htype hpy h1 h2
    have step2 : ∀ le : Option (List Char),
        extractTextWithFallback [req.jsBasicOutcome] le =
          .error ((match req.jsBasicOutcome with
                   | .exn m => some m
                   | .ok _ => le).getD "All extraction methods failed".toList) := by
      intro le
      cases ho2 : req.jsBasicOutcome with
      | ok r2 =>
        rw [ho2] at h2
        rw [fallback_cons_skip r2 _ le (not_gatePasses_ok h2)]
        rfl
      | exn m => rfl
    have hfb : ∃ e, extractTextWithFallback [req.pdfParseOutcome, req.jsBasicOutcome] none = .error e := by
      cases ho1 : req.pdfParseOutcome with
      | ok r1 =>
        rw [ho1] at h1
        rw [fallback_cons_skip r1 _ none (not_gatePasses_ok h1)]
        exact ⟨_, step2 none⟩
      | exn m =>
        rw [fallback_cons_exn]
        exact ⟨_, step2 (some m)⟩
    obtain ⟨e, he⟩ := hfb
    refine ⟨?_, e, he, ?_, ?_, ?_, ?_⟩
    · simp [extractPOST, hfile, htype, hpy, he]
    · simp [extractPOST, hfile, htype, hpy, he]
    · intro m hm
      cases ho1 : req.pdfParseOutcome with
      | ok r1 =>
        rw [ho1] at h1 he
        rw [fallback_cons_skip r1 _ none (not_gatePasses_ok h1), step2 none, hm] at he
        simpa using he.symm
      | exn m1 =>
        rw [ho1, fallback_cons_exn, step2 (some m1), hm] at he
        simpa using he.symm
    · intro r2 m ho2 ho1
      rw [ho1] at he
      rw [fallback_cons_exn, step2 (some m), ho2] at he
      simpa using he.symm
    · intro r1 r2 ho1 ho2
      rw [ho1] at h1 he
      rw [fallback_cons_skip r1 _ none (not_gatePasses_ok h1), step2 none, ho2] at he
      simpa using he.symm
  · intro req text meta hfile htype hpy hok hlen
    refine ⟨?_, ?_, ?_⟩ <;>
      simp [extractPOST, hfile, htype, hpy, hok, hlen]

/-- C4 witness. -/
theorem extract_exhaustion_and_low_text_witness :
    (extractPOST ⟨true, "application/pdf".toList, false,
        .exn [], .exn "pdf-parse extraction failed: boom".toList,
        .ok ⟨[], ⟨"JavaScript (Basic)".toList, none, none, none, none⟩, false⟩⟩).status = 500 ∧
    (extractPOST ⟨true, "application/pdf".toList, true,
        .ok "short".toList ⟨"Python (auto)".toList, none, none, none, none⟩,
        .exn [], .exn []⟩).status = 422 :=
  ⟨(extract_exhaustion_and_low_text.1
      ⟨true, "application/pdf".toList, false,
        .exn [], .exn "pdf-parse extraction failed: boom".toList,
        .ok ⟨[], ⟨"JavaScript (Basic)".toList, none, none, none, none⟩, false⟩⟩
      rfl rfl rfl
      (by rintro ⟨r, hr, -, -⟩; cases hr)
      (by rintro ⟨r, hr, hs, -⟩; cases hr; cases hs)).1,
   (extract_exhaustion_and_low_text.2
      ⟨true, "application/pdf".toList, true,
        .ok "short".toList ⟨"Python (auto)".toList, none, none, none, none⟩,
        .exn [], .exn []⟩
      "short".toList ⟨"Python (auto)".toList, none, none, none, none⟩
      rfl rfl rfl rfl (by decide)).1⟩

/-- C4 counterexample: with both JavaScript backends failing the gate, the
endpoint returns a five hundred, not the four hundred twenty-two the claim
states for backend exhaustion. -/
theorem extract_exhaustion_returns_500 :
    (extractPOST ⟨true, "application/pdf".toList, false,
        .exn [], .exn "pdf-parse extraction failed: ENOENT".toList,
        .ok ⟨[], ⟨"JavaScript (Basic)".toList, none, none, none, none⟩, false⟩⟩).status = 500 ∧
    (extractPOST ⟨true, "application/pdf".toList, false,
        .exn [], .exn "pdf-parse extraction failed: ENOENT".toList,
        .ok ⟨[], ⟨"JavaScript (Basic)".toList, none, none, none, none⟩, false⟩⟩).errorMsg =
      some ("Failed to extract text from PDF: ".toList ++
            "pdf-parse extraction failed: ENOENT".toList) := by
  constructor <;> rfl

/-! ## Theorems: placeholder duration -/

/-- C6: the placeholder duration equals the specification's formula, is at
least thirty seconds for every character count, equals thirty seconds at
character count one, is monotonically non-decreasing in the character count,
and has no upper cap. -/
theorem durationSec_props :
    (∀ c : ℕ, durationSec c = max (((c / 5 : ℕ) : ℚ) / 150 * 60) 30 ∧
      30 ≤ durationSec c) ∧
    durationSec 1 = 30 ∧
    (∀ c c' : ℕ, c ≤ c' → durationSec c ≤ durationSec c') ∧
    (∀ B : ℚ, ∃ c : ℕ, B < durationSec c) := by
  refine ⟨fun c => ⟨rfl, le_max_right _ _⟩, by norm_num [durationSec], ?_, ?_⟩
  · intro c c' h
    have hdiv : c / 5 ≤ c' / 5 := Nat.div_le_div_right h
    have hq : ((c / 5 : ℕ) : ℚ) / 150 * 60 ≤ ((c' / 5 : ℕ) : ℚ) / 150 * 60 := by
      have : ((c / 5 : ℕ) : ℚ) ≤ ((c' / 5 : ℕ) : ℚ) := by exact_mod_cast hdiv
      nlinarith
    exact max_le_max hq le_rfl
  · intro B
    refine ⟨750 * (⌈B⌉₊ + 1), ?_⟩
    have hc : (750 * (⌈B⌉₊ + 1)) / 5 = 150 * (⌈B⌉₊ + 1) := by omega
    have hB : B ≤ (⌈B⌉₊ : ℚ) := Nat.le_ceil B
    have hlt : B < ((150 * (⌈B⌉₊ + 1) : ℕ) : ℚ) / 150 * 60 := by
      push_cast
      nlinarith
    calc B < ((150 * (⌈B⌉₊ + 1) : ℕ) : ℚ) / 150 * 60 := hlt
    _ ≤ durationSec (750 * (⌈B⌉₊ + 1)) := by
        rw [durationSec, hc]
        exact le_max_left _ _

/-- C6 witness. -/
theorem durationSec_props_witness :
    ((3 : ℕ) ≤ 800 ∧ durationSec 3 ≤ durationSec 800) ∧ ∃ c : ℕ, 1000 < durationSec c :=
  ⟨⟨by decide, durationSec_props.2.2.1 3 800 (by decide)⟩,
   durationSec_props.2.2.2 1000⟩

/-! ## Theorems: WAV container header -/

theorem pcmBytes_length : ∀ n : ℕ, (pcmBytes n).length = n * 2 := by
  intro n
  induction n with
  | zero => rfl
  | succ k ih => simp [pcmBytes, sampleBytes, ih]; omega

theorem wavHeader_cons_form (n : ℕ) :
    wavHeader n =
      82 :: 73 :: 70 :: 70 ::
      (36 + n * 2) % 256 :: (36 + n * 2) / 256 % 256 ::
      (36 + n * 2) / 2 ^ 16 % 256 :: (36 + n * 2) / 2 ^ 24 % 256 ::
      87 :: 65 :: 86 :: 69 :: 102 :: 109 :: 116 :: 32 ::
      16 :: 0 :: 0 :: 0 :: 1 :: 0 :: 1 :: 0 ::
      34 :: 86 :: 0 :: 0 :: 68 :: 172 :: 0 :: 0 ::
      2 :: 0 :: 16 :: 0 :: 100 :: 97 :: 116 :: 97 ::
      (n * 2) % 256 :: (n * 2) / 256 % 256 ::
      (n * 2) / 2 ^ 16 % 256 :: (n * 2) / 2 ^ 24 % 256 :: [] := rfl

theorem wavHeader_length (n : ℕ) : (wavHeader n).length = 44 := by
  rw [wavHeader_cons_form]
  rfl

theorem u32le_roundtrip (v : ℕ) (h : v < 2 ^ 32) :
    v % 256 + 256 * (v / 256 % 256) + 2 ^ 16 * (v / 2 ^ 16 % 256) +
      2 ^ 24 * (v / 2 ^ 24 % 256) = v := by
  omega

/-- C5: for every placeholder waveform, with `N` its sample count, the header
is exactly forty-four bytes, the total buffer length is forty-four plus twice
`N`, the RIFF chunk size field read at byte offset four decodes to thirty-six
plus twice `N`, and the data chunk size field read at offset forty decodes to
twice `N` (the size fields fit, provided thirty-six plus twice `N` is below
two to the thirty-second, as DataView stores them modulo that). -/
theorem fallbackWav_header_fields (c : ℕ) (h : 36 + numSamples c * 2 < 2 ^ 32) :
    (wavHeader (numSamples c)).length = 44 ∧
    (fallbackWavBytes c).length = 44 + numSamples c * 2 ∧
    readU32 (fallbackWavBytes c) 4 = 36 + numSamples c * 2 ∧
    readU32 (fallbackWavBytes c) 40 = numSamples c * 2 := by
  have hlen : (wavHeader (numSamples c)).length = 44 := wavHeader_length _
  have htot : (fallbackWavBytes c).length = 44 + numSamples c * 2 := by
    rw [fallbackWavBytes, List.length_append, hlen, pcmBytes_length]
  have hget : ∀ i, i < 44 →
      (fallbackWavBytes c).getD i 0 = (wavHeader (numSamples c)).getD i 0 := by
    intro i hi
    rw [fallbackWavBytes, List.getD_append]
    omega
  refine ⟨hlen, htot, ?_, ?_⟩
  · rw [readU32, hget 4 (by omega), hget 5 (by omega), hget 6 (by omega), hget 7 (by omega)]
    rw [wavHeader_cons_form]
    show (36 + numSamples c * 2) % 256 + 256 * ((36 + numSamples c * 2) / 256 % 256) +
      2 ^ 16 * ((36 + numSamples c * 2) / 2 ^ 16 % 256) +
      2 ^ 24 * ((36 + numSamples c * 2) / 2 ^ 24 % 256) = 36 + numSamples c * 2
    exact u32le_roundtrip _ h
  · rw [readU32, hget 40 (by omega), hget 41 (by omega), hget 42 (by omega), hget 43 (by omega)]
    rw [wavHeader_cons_form]
    show (numSamples c * 2) % 256 + 256 * ((numSamples c * 2) / 256 % 256) +
      2 ^ 16 * ((numSamples c * 2) / 2 ^ 16 % 256) +
      2 ^ 24 * ((numSamples c * 2) / 2 ^ 24 % 256) = numSamples c * 2
    exact u32le_roundtrip _ (by omega)

theorem numSamples_zero : numSamples 0 = 661500 := by
  norm_num [numSamples, durationSec]; rfl

/-- C5 witness. -/
theorem fallbackWav_header_fields_witness :
    36 + numSamples 0 * 2 < 2 ^ 32 ∧
    readU32 (fallbackWavBytes 0) 4 = 36 + numSamples 0 * 2 :=
  ⟨by rw [numSamples_zero]; norm_num,
   (fallbackWav_header_fields 0 (by rw [numSamples_zero]; norm_num)).2.2.1⟩

/-! ## Theorems: display-duration estimator -/

theorem splitWsAux_ne_nil : ∀ (l acc : List Char), splitWsAux l acc ≠ []
  | [], acc => by simp [splitWsAux]
  | [c], acc => by by_cases h : isJsSpace c <;> simp [splitWsAux, h]
  | c :: d :: rest, acc => by
    by_cases h1 : isJsSpace c
    · by_cases h2 : isJsSpace d
      · simpa [splitWsAux, h1, h2] using splitWsAux_ne_nil (d :: rest) acc
      · simp [splitWsAux, h1, h2]
    · simpa [splitWsAux, h1] using splitWsAux_ne_nil (d :: rest) (c :: acc)

theorem wordCount_pos (text : List Char) : 1 ≤ wordCount text :=
  List.length_pos.mpr (splitWsAux_ne_nil text [])

theorem minutes_eq_ceil (w : ℕ) : (w + 149) / 150 = ⌈(w : ℚ) / 150⌉₊ := by
  apply le_antisymm
  · rcases Nat.eq_zero_or_pos ((w + 149) / 150) with hm | hm
    · omega
    · have harith : ((w + 149) / 150 - 1) * 150 < w := by omega
      have hq : (((w + 149) / 150 - 1 : ℕ) : ℚ) < (w : ℚ) / 150 := by
        rw [lt_div_iff (by norm_num : (0 : ℚ) < 150)]
        exact_mod_cast harith
      have := Nat.lt_ceil.mpr hq
      omega
  · apply Nat.ceil_le.mpr
    rw [div_le_iff (by norm_num : (0 : ℚ) < 150)]
    have harith : w ≤ ((w + 149) / 150) * 150 := by omega
    exact_mod_cast harith

theorem digitChar_isDigit : ∀ k : ℕ, k < 10 → (Nat.digitChar k).isDigit = true := by
  decide

theorem toDigitsCore_digits : ∀ (fuel n : ℕ) (ds : List Char),
    (∀ c ∈ ds, c.isDigit = true) →
    ∀ c ∈ Nat.toDigitsCore 10 fuel n ds, c.isDigit = true
  | 0, n, ds, hds => by simpa [Nat.toDigitsCore] using hds
  | fuel + 1, n, ds, hds => by
    have hd : (Nat.digitChar (n % 10)).isDigit = true :=
      digitChar_isDigit _ (Nat.mod_lt _ (by norm_num))
    have hcons : ∀ c ∈ Nat.digitChar (n % 10) :: ds, c.isDigit = true := by
      intro c hc
      rcases List.mem_cons.mp hc with rfl | hmem
      · exact hd
      · exact hds c hmem
    simp only [Nat.toDigitsCore]
    by_cases h : n / 10 = 0
    · simpa [h] using hcons
    · simpa [h] using toDigitsCore_digits fuel (n / 10) _ hcons

theorem repr_digits (m : ℕ) : ∀ c ∈ (Nat.repr m).toList, c.isDigit = true := by
  have h : (Nat.repr m).toList = Nat.toDigitsCore 10 (m + 1) m [] := rfl
  rw [h]
  exact toDigitsCore_digits _ _ _ (by simp)

/-- C9: for every input text the duration label is the decimal numeral of
`M = ceil(wordCount / 150)` followed by a colon and two zeros, `M` is at
least one (the whitespace split never yields an empty piece list, and the
empty string splits into one empty token), every character of the numeral is
a decimal digit, and the empty string yields exactly the label 1:00. -/
theorem estimateDuration_shape (text : List Char) :
    estimateDuration text =
      (Nat.repr ⌈(wordCount text : ℚ) / 150⌉₊).toList ++ [':', '0', '0'] ∧
    1 ≤ ⌈(wordCount text : ℚ) / 150⌉₊ ∧
    (∀ c ∈ (Nat.repr ⌈(wordCount text : ℚ) / 150⌉₊).toList, c.isDigit = true) ∧
    estimateDuration [] = "1:00".toList := by
  have hm := minutes_eq_ceil (wordCount text)
  have hpos := wordCount_pos text
  refine ⟨?_, ?_, repr_digits _, by rfl⟩
  · rw [estimateDuration, hm]
  · rw [← hm]
    omega

/-! ## Theorems: text-to-speech route -/

theorem replaceAll_replicate_a (p : Char) (ps rep : List Char) (hp : p ≠ 'a') :
    ∀ n, replaceAll p ps rep (List.replicate n 'a') = List.replicate n 'a'
  | 0 => by simp [replaceAll]
  | n + 1 => by
    rw [List.replicate_succ, replaceAll]
    have hpre : ¬ ((p :: ps).isPrefixOf ('a' :: List.replicate n 'a') = true) := by
      simp [List.isPrefixOf]
      intro h
      exact absurd h hp
    rw [if_neg hpre, replaceAll_replicate_a p ps rep hp n]

theorem filter_star_replicate_a (n : ℕ) :
    List.filter (fun c => !(c = '*')) (List.replicate n 'a') = List.replicate n 'a' := by
  induction n with
  | zero => rfl
  | succ k ih => rw [List.replicate_succ, List.filter_cons]; simp [ih]

theorem stripHeadingMarks_replicate_a :
    ∀ n, stripHeadingMarks (List.replicate n 'a') = List.replicate n 'a'
  | 0 => by simp [stripHeadingMarks]
  | n + 1 => by
    rw [List.replicate_succ, stripHeadingMarks]
    simp only [show ('a' = '#') = False by simp, if_false]
    rw [stripHeadingMarks_replicate_a n]

theorem stripNonAllowed_replicate_a (n : ℕ) :
    stripNonAllowed (List.replicate n 'a') = List.replicate n 'a' := by
  rw [stripNonAllowed, List.map_replicate]
  rfl

theorem collapseWs_replicate_a : ∀ n, collapseWs (List.replicate n 'a') = List.replicate n 'a'
  | 0 => rfl
  | 1 => rfl
  | n + 2 => by
    show collapseWs ('a' :: 'a' :: List.replicate n 'a') = _
    rw [collapseWs]
    simp only [show isJsSpace 'a' = false from rfl, Bool.false_eq_true, if_false]
    rw [show ('a' :: List.replicate n 'a') = List.replicate (n + 1) 'a' from rfl,
      collapseWs_replicate_a (n + 1)]
    rfl

theorem dropWhile_ws_replicate_a (n : ℕ) :
    List.dropWhile (fun c => isJsSpace c) (List.replicate n 'a') = List.replicate n 'a' := by
  cases n with
  | zero => rfl
  | succ k =>
    rw [List.replicate_succ, List.dropWhile_cons]
    simp [show isJsSpace 'a' = false from rfl]

theorem jsTrim_replicate_a (n : ℕ) :
    jsTrim (List.replicate n 'a') = List.replicate n 'a' := by
  rw [jsTrim, dropWhile_ws_replicate_a, List.reverse_replicate, dropWhile_ws_replicate_a,
    List.reverse_replicate]

theorem cleanText_replicate_a (n : ℕ) :
    cleanText (List.replicate n 'a') = List.replicate n 'a' := by
  rw [cleanText,
    replaceAll_replicate_a '[' _ _ (by decide),
    replaceAll_replicate_a '[' _ _ (by decide),
    replaceAll_replicate_a '[' _ _ (by decide),
    replaceAll_replicate_a '[' _ _ (by decide),
    filter_star_replicate_a, stripHeadingMarks_replicate_a,
    stripNonAllowed_replicate_a, collapseWs_replicate_a, jsTrim_replicate_a]

/-- C1 (amended): for every synthesis request whose body parses and whose
text is non-empty, and whose audio directory is usable, the response is two
hundred with success true and an audio reference, whatever the external
synthesis stage does; a synthesis-stage failure is absorbed into the
placeholder fallback and reported only through the warning string and the
fallback flag. -/
theorem tts_success_for_nonempty (env : JsEnv) (text : List Char) (options : TTSOptions)
    (hne : text.length ≠ 0) (hdir : env.audioDirOk = true) :
    (ttsPOST env (.valid text options)).status = 200 ∧
    (ttsPOST env (.valid text options)).success = true ∧
    (ttsPOST env (.valid text options)).audioUrl ≠ none ∧
    (env.gttsOk = false →
      (ttsPOST env (.valid text options)).isFallback = true ∧
      (ttsPOST env (.valid text options)).warning ≠ none) := by
  cases hg : env.gttsOk <;> simp [ttsPOST, hne, hdir, hg]

/-- C1 witness. -/
theorem tts_success_for_nonempty_witness :
    (['a'].length ≠ 0 ∧ (⟨0, true, false⟩ : JsEnv).audioDirOk = true) ∧
    (ttsPOST ⟨0, true, false⟩ (.valid ['a'] ⟨"casual".toList, [], [], []⟩)).status = 200 ∧
    (ttsPOST ⟨0, true, false⟩ (.valid ['a'] ⟨"casual".toList, [], [], []⟩)).isFallback = true :=
  have h := tts_success_for_nonempty ⟨0, true, false⟩ ['a'] ⟨"casual".toList, [], [], []⟩
    (by decide) rfl
  ⟨⟨by decide, rfl⟩, h.1, (h.2.2.2 rfl).1⟩

/-- C1 counterexample: a synthesis request with empty text is answered with a
four hundred error status, so the endpoint does not return two hundred for
every synthesis request. -/
theorem tts_empty_text_400 :
    (ttsPOST ⟨0, true, true⟩ (.valid [] ⟨"professional".toList, [], [], []⟩)).status = 400 ∧
    (ttsPOST ⟨0, true, true⟩ (.valid [] ⟨"professional".toList, [], [], []⟩)).success = false := by
  constructor <;> rfl

theorem base64Encode_length : ∀ l : List ℕ, (base64Encode l).length = 4 * ((l.length + 2) / 3)
  | [] => by simp [base64Encode]
  | [b1] => by simp [base64Encode]
  | [b1, b2] => by simp [base64Encode]
  | b1 :: b2 :: b3 :: rest => by
    simp [base64Encode, base64Encode_length rest]
    omega

theorem generateFallbackAudio_length (env : JsEnv) (c : ℕ) :
    (generateFallbackAudio env c).length = 22 + 4 * ((44 + numSamples c * 2 + 2) / 3) := by
  rw [generateFallbackAudio, List.length_append, base64Encode_length, fallbackWavBytes,
    List.length_append, wavHeader_length, pcmBytes_length]
  rfl

theorem numSamples_5042 : numSamples 5042 = 8890560 := by
  norm_num [numSamples, durationSec]; rfl

theorem numSamples_6000 : numSamples 6000 = 10584000 := by
  norm_num [numSamples, durationSec]; rfl

theorem contSuffix_length : contSuffix.length = 42 := rfl

theorem ttsPOST_fallback_audioUrl (env : JsEnv) (text : List Char) (options : TTSOptions)
    (hne : text.length ≠ 0) (hdir : env.audioDirOk = true) (hg : env.gttsOk = false) :
    (ttsPOST env (.valid text options)).audioUrl =
      some (generateFallbackAudio env (cleanAndTruncate text).length) := by
  simp [ttsPOST, hne, hdir, hg]

/-- C2 (amended): for every synthesis request whose cleaned text exceeds the
five thousand character maximum, the text sent to the external backend is the
cleaned text truncated to five thousand characters plus the continuation
suffix, and if that backend then fails, the placeholder waveform is sized
from the truncated cleaned text length (five thousand and forty-two
characters), while the duration string reported alongside it is estimated
from the original (pre-truncation) request text. -/
theorem tts_truncation_and_fallback_sizing (env : JsEnv) (text : List Char)
    (options : TTSOptions)
    (hlong : 5000 < (cleanText text).length)
    (hdir : env.audioDirOk = true) (hg : env.gttsOk = false) :
    cleanAndTruncate text = (cleanText text).take 5000 ++ contSuffix ∧
    (cleanAndTruncate text).length = 5042 ∧
    (ttsPOST env (.valid text options)).audioUrl =
      some (generateFallbackAudio env 5042) ∧
    (ttsPOST env (.valid text options)).duration = some (estimateDuration text) := by
  have hne : text.length ≠ 0 := by
    intro h
    rw [List.length_eq_zero.mp h] at hlong
    simp [cleanText, replaceAll, jsTrim, collapseWs, stripNonAllowed, stripHeadingMarks] at hlong
  have htr : cleanAndTruncate text = (cleanText text).take 5000 ++ contSuffix := by
    rw [cleanAndTruncate, if_pos hlong]
  have hlen : (cleanAndTruncate text).length = 5042 := by
    rw [htr, List.length_append, List.length_take, contSuffix_length,
      min_eq_left (by omega)]
  refine ⟨htr, hlen, ?_, ?_⟩ <;>
    simp [ttsPOST, hne, hdir, hg, hlen]

/-- C2 witness. -/
theorem tts_truncation_and_fallback_sizing_witness :
    (5000 < (cleanText (List.replicate 6000 'a')).length ∧
      (⟨0, true, false⟩ : JsEnv).audioDirOk = true ∧
      (⟨0, true, false⟩ : JsEnv).gttsOk = false) ∧
    (cleanAndTruncate (List.replicate 6000 'a')).length = 5042 :=
  have hlong : 5000 < (cleanText (List.replicate 6000 'a')).length := by
    rw [cleanText_replicate_a]
    simp only [List.length_replicate]
    norm_num
  ⟨⟨hlong, rfl, rfl⟩,
   (tts_truncation_and_fallback_sizing ⟨0, true, false⟩ (List.replicate 6000 'a')
      ⟨"academic".toList, [], [], []⟩ hlong rfl rfl).2.1⟩

/-- C2 counterexample: for an original text of six thousand characters whose
cleaned form is unchanged, the fallback response's placeholder is generated
from the truncated length of five thousand and forty-two characters, and
that artifact differs from the one the claim states, namely the placeholder
generated from the original six-thousand-character length. -/
theorem tts_fallback_sized_from_truncated_not_original :
    (ttsPOST ⟨0, true, false⟩
        (.valid (List.replicate 6000 'a') ⟨"friendly".toList, [], [], []⟩)).audioUrl =
      some (generateFallbackAudio ⟨0, true, false⟩ 5042) ∧
    (List.replicate 6000 'a').length = 6000 ∧
    generateFallbackAudio ⟨0, true, false⟩ 5042 ≠
      generateFallbackAudio ⟨0, true, false⟩ 6000 := by
  have hlong : 5000 < (cleanText (List.replicate 6000 'a')).length := by
    rw [cleanText_replicate_a 6000]
    simp only [List.length_replicate]
    norm_num
  have hne : (List.replicate 6000 'a').length ≠ 0 := by
    simp only [List.length_replicate]
    norm_num
  have htr : cleanAndTruncate (List.replicate 6000 'a') =
      (cleanText (List.replicate 6000 'a')).take 5000 ++ contSuffix := by
    rw [cleanAndTruncate, if_pos hlong]
  have hlen : (cleanAndTruncate (List.replicate 6000 'a')).length = 5042 := by
    rw [htr, List.length_append, List.length_take, contSuffix_length]
    generalize hx : (cleanText (List.replicate 6000 'a')).length = x at hlong ⊢
    omega
  refine ⟨?_, ?_, ?_⟩
  · rw [ttsPOST_fallback_audioUrl _ _ _ hne rfl rfl, hlen]
  · simp only [List.length_replicate]
  · intro h
    have hl := congrArg List.length h
    rw [generateFallbackAudio_length, generateFallbackAudio_length,
      numSamples_5042, numSamples_6000] at hl
    norm_num at hl

/-! ## Theorems: placeholder waveform determinism and sample bounds -/

/-- C7: the placeholder synthesizer is deterministic and pure: its output
does not depend on any ambient runtime state, so two calls with the same
input character count produce the identical data URL, hence byte-identical
WAV header and PCM buffer. -/
theorem generateFallbackAudio_deterministic (e1 e2 : JsEnv) (c : ℕ) :
    generateFallbackAudio e1 c = generateFallbackAudio e2 c := rfl

theorem decodeInt16_toUint16 (v : ℤ) (h1 : -32768 ≤ v) (h2 : v ≤ 32767) :
    decodeInt16 (toUint16 v) = v := by
  unfold decodeInt16 toUint16
  split <;> omega

theorem envelope_bounds (t : ℝ) (ht : 0 ≤ t) :
    0 ≤ min 1 (t * 10) * Real.exp (-t * 0.5) ∧
    min 1 (t * 10) * Real.exp (-t * 0.5) ≤ 1 := by
  have hm0 : (0 : ℝ) ≤ min 1 (t * 10) := le_min (by norm_num) (by nlinarith)
  have hm1 : min 1 (t * 10) ≤ 1 := min_le_left _ _
  have he0 : (0 : ℝ) < Real.exp (-t * 0.5) := Real.exp_pos _
  have he1 : Real.exp (-t * 0.5) ≤ 1 := by
    have h := Real.exp_le_exp.mpr (show -t * 0.5 ≤ 0 by nlinarith)
    simpa [Real.exp_zero] using h
  exact ⟨mul_nonneg hm0 he0.le, mul_le_one₀ hm1 he0.le he1⟩

theorem sampleReal_abs_le (i : ℕ) :
    -(4915.05 : ℝ) ≤ sampleReal i ∧ sampleReal i ≤ 4915.05 := by
  rw [sampleReal]
  have ht : (0 : ℝ) ≤ (i : ℝ) / 22050 := by positivity
  obtain ⟨he0, he1⟩ := envelope_bounds ((i : ℝ) / 22050) ht
  have hs1 : Real.sin (2 * Real.pi * 440 * ((i : ℝ) / 22050)) ≤ 1 := Real.sin_le_one _
  have hs2 : -1 ≤ Real.sin (2 * Real.pi * 440 * ((i : ℝ) / 22050)) := Real.neg_one_le_sin _
  constructor <;> nlinarith [mul_le_mul_of_nonneg_right hs1 he0,
    mul_le_mul_of_nonneg_right hs2 he0,
    mul_le_one₀ he1 (by linarith : (0:ℝ) ≤ 1) (le_refl (1:ℝ))]

/-- C10: every stored placeholder sample value lies within the interval from
negative four thousand nine hundred sixteen to four thousand nine hundred
fifteen, because the sine factor is at most one in magnitude, the envelope
lies in the unit interval, and the amplitude is fifteen hundredths, so the
pre-floor magnitude is at most 4915.05; in particular the value fits in a
signed sixteen-bit sample without wrap-around, its stored pattern decoding
back to the same value. -/
theorem sampleValue_bounds (i : ℕ) :
    -4916 ≤ sampleValue i ∧ sampleValue i ≤ 4915 ∧
    decodeInt16 (toUint16 (sampleValue i)) = sampleValue i := by
  obtain ⟨hlo, hhi⟩ := sampleReal_abs_le i
  have h1 : -4916 ≤ sampleValue i := by
    rw [sampleValue]
    have : ((-4916 : ℤ) : ℝ) ≤ sampleReal i := by push_cast; linarith
    exact Int.le_floor.mpr this
  have h2 : sampleValue i ≤ 4915 := by
    rw [sampleValue]
    have : sampleReal i < ((4916 : ℤ) : ℝ) := by push_cast; linarith
    have := Int.floor_lt.mpr this
    omega
  exact ⟨h1, h2, decodeInt16_toUint16 _ (by omega) (by omega)⟩

/-! ## Theorems: sample quantization -/

theorem sampleReal_formula (i : ℕ) :
    sampleReal i =
      Real.sin (2 * Real.pi * 440 * ((i : ℝ) / 22050)) * 0.15 *
        (min 1 (10 * ((i : ℝ) / 22050)) * Real.exp (-(0.5 * ((i : ℝ) / 22050)))) * 32767 := by
  rw [sampleReal]
  have h1 : (-((i : ℝ) / 22050) * 0.5) = -(0.5 * ((i : ℝ) / 22050)) := by ring
  have h2 : (((i : ℝ) / 22050) * 10) = 10 * ((i : ℝ) / 22050) := by ring
  rw [h1, h2]

/-- C8 (amended): the stored sample value at every index is the floor, not
the round, of the specification's formula at the route's amplitude of
fifteen hundredths: the quantization of the real-valued sample is
Math.floor. -/
theorem sampleValue_eq_specFloor (i : ℕ) : sampleValue i = specSampleFloor i := by
  rw [sampleValue, specSampleFloor, sampleReal_formula]

theorem specSampleRound_eq_round (i : ℕ) : specSampleRound i = round (sampleReal i) := by
  rw [specSampleRound, sampleReal_formula]

theorem sampleReal_2606_enclosure :
    (1051 / 20 : ℝ) < sampleReal 2606 ∧ sampleReal 2606 < 1059 / 20 := by
  rw [sampleReal_formula]
  have hcast : ((2606 : ℕ) : ℝ) = 2606 := by norm_num
  rw [hcast]
  rw [min_eq_left (by norm_num : (1 : ℝ) ≤ 10 * ((2606 : ℝ) / 22050))]
  have hangle : 2 * Real.pi * 440 * ((2606 : ℝ) / 22050) =
      8 * Real.pi / 2205 + (52 : ℤ) * (2 * Real.pi) := by
    push_cast
    ring
  rw [hangle, Real.sin_add_int_mul_two_pi]
  have hexp_eq : (-(0.5 * ((2606 : ℝ) / 22050))) = -(1303 / 22050 : ℝ) := by norm_num
  rw [hexp_eq]
  have hpi1 : (3.141592 : ℝ) < Real.pi := Real.pi_gt_d6
  have hpi2 : Real.pi < 3.141593 := Real.pi_lt_d6
  have hA0 : (0 : ℝ) < 8 * Real.pi / 2205 := by positivity
  have hAlo : (8 * 3.141592 / 2205 : ℝ) < 8 * Real.pi / 2205 := by nlinarith
  have hAhi : 8 * Real.pi / 2205 < (8 * 3.141593 / 2205 : ℝ) := by nlinarith
  have hA1 : 8 * Real.pi / 2205 ≤ (1 : ℝ) := by nlinarith
  have hsin_hi : Real.sin (8 * Real.pi / 2205) < 8 * 3.141593 / 2205 :=
    lt_trans (Real.sin_lt hA0) hAhi
  have hsin_lo : (8 * 3.141592 / 2205 - (8 * 3.141593 / 2205) ^ 3 / 4 : ℝ) <
      Real.sin (8 * Real.pi / 2205) := by
    have h1 := Real.sin_gt_sub_cube hA0 hA1
    have hcube : (8 * Real.pi / 2205) ^ 3 < (8 * 3.141593 / 2205 : ℝ) ^ 3 :=
      pow_lt_pow_left hAhi hA0.le (by norm_num)
    nlinarith
  have hsin0 : (0 : ℝ) < Real.sin (8 * Real.pi / 2205) := by
    refine lt_trans ?_ hsin_lo
    norm_num
  have hE_lo : (1 - 1303 / 22050 : ℝ) ≤ Real.exp (-(1303 / 22050)) := by
    have h := Real.add_one_le_exp (-(1303 / 22050 : ℝ))
    linarith
  have hE_hi : Real.exp (-(1303 / 22050 : ℝ)) ≤ (1 + 1303 / 22050 : ℝ)⁻¹ := by
    rw [Real.exp_neg]
    exact inv_le_inv_of_le (by norm_num) (by linarith [Real.add_one_le_exp (1303 / 22050 : ℝ)])
  have hE0 : (0 : ℝ) < Real.exp (-(1303 / 22050 : ℝ)) := Real.exp_pos _
  have hprod_hi : Real.sin (8 * Real.pi / 2205) * Real.exp (-(1303 / 22050 : ℝ)) <
      (8 * 3.141593 / 2205) * (1 + 1303 / 22050 : ℝ)⁻¹ :=
    calc Real.sin (8 * Real.pi / 2205) * Real.exp (-(1303 / 22050 : ℝ)) ≤
        Real.sin (8 * Real.pi / 2205) * (1 + 1303 / 22050 : ℝ)⁻¹ :=
          mul_le_mul_of_nonneg_left hE_hi hsin0.le
      _ < (8 * 3.141593 / 2205) * (1 + 1303 / 22050 : ℝ)⁻¹ :=
          mul_lt_mul_of_pos_right hsin_hi (by norm_num)
  have hprod_lo : (8 * 3.141592 / 2205 - (8 * 3.141593 / 2205) ^ 3 / 4 : ℝ) *
        (1 - 1303 / 22050) <
      Real.sin (8 * Real.pi / 2205) * Real.exp (-(1303 / 22050 : ℝ)) :=
    calc (8 * 3.141592 / 2205 - (8 * 3.141593 / 2205) ^ 3 / 4 : ℝ) * (1 - 1303 / 22050) <
        Real.sin (8 * Real.pi / 2205) * (1 - 1303 / 22050 : ℝ) :=
          mul_lt_mul_of_pos_right hsin_lo (by norm_num)
      _ ≤ Real.sin (8 * Real.pi / 2205) * Real.exp (-(1303 / 22050 : ℝ)) :=
          mul_le_mul_of_nonneg_left hE_lo hsin0.le
  have hshape : Real.sin (8 * Real.pi / 2205) * 0.15 *
      (1 * Real.exp (-(1303 / 22050 : ℝ))) * 32767 =
      (Real.sin (8 * Real.pi / 2205) * Real.exp (-(1303 / 22050 : ℝ))) * 4915.05 := by
    ring
  rw [hshape]
  constructor <;> nlinarith [hprod_lo, hprod_hi]

/-- C8 counterexample: at sample index two thousand six hundred and six the
stored value is fifty-two, the floor of the real sample, while the
specification's rounding formula gives fifty-three, so the stored value is
not the round of the formula. -/
theorem sample_2606_floor_ne_round :
    sampleValue 2606 = 52 ∧ specSampleRound 2606 = 53 ∧
    sampleValue 2606 ≠ specSampleRound 2606 := by
  obtain ⟨hlo, hhi⟩ := sampleReal_2606_enclosure
  have hfloor : sampleValue 2606 = 52 := by
    rw [sampleValue]
    rw [Int.floor_eq_iff]
    constructor <;> push_cast <;> linarith
  have hround : specSampleRound 2606 = 53 := by
    rw [specSampleRound_eq_round, round_eq]
    rw [Int.floor_eq_iff]
    constructor <;> push_cast <;> linarith
  exact ⟨hfloor, hround, by rw [hfloor, hround]; omega⟩
